import Mathlib

/-! goforwarder: host-substitution pipeline

A shallow embedding of `src/main.go` (the reverse proxy that lets alias host names stand
in for origin host names) together with theorems about the lookup of the origin host, the
classification and decoding of upstream bodies, the textual substitution applied to bodies
and header values, and the redirect callback installed on the outbound client.

Conventions of the embedding.

* A Go `string` is a byte sequence: `GoString := List UInt8`. String literals of the
  program are written `str "..."` (their UTF-8 bytes).
* Functions of the Go standard library that the program calls are modelled next to the
  program (`Contains`, `ReplaceAll`, `Header.Get`, ...) or, when they talk to the outside
  world (gzip decoding, URL parsing, the network round trip), are fields of `Env`.
* Mutation of `*http.Response` is explicit state passing: `rewriteResponse` returns the
  response after the call together with the returned error.
* A body stream is described by what reading the rest of it yields; reading advances it
  (`drain`, `Env.gzipLeaves`).
* Logging is not modelled.
-/

namespace GoForwarder

/-! ## Strings -/

/-- A Go string: an immutable sequence of bytes. -/
abbrev GoString := List UInt8

/-- A Go error value, represented by its message. -/
abbrev GoError := GoString

/-- The bytes of a string literal (UTF-8 encoded, as the Go compiler stores it). -/
def str (s : String) : GoString := s.toList.flatMap String.utf8EncodeChar

/-- Model of `strings.HasPrefix`. -/
def HasPrefix (s pre : GoString) : Bool := pre.isPrefixOf s

/-- Model of `strings.Contains`: some suffix of `s` starts with `substr`. -/
def Contains : GoString → GoString → Bool
  | [], substr => substr.isEmpty
  | c :: cs, substr => HasPrefix (c :: cs) substr || Contains cs substr

/-- Model of the width returned by `utf8.DecodeRuneInString`: the number of bytes of the
first rune of `s` (1 for an invalid or truncated encoding, 0 for the empty string). -/
def runeWidth : GoString → Nat
  | [] => 0
  | s0 :: rest =>
    let b := s0.toNat
    let cont := fun (x : UInt8) => 0x80 ≤ x.toNat ∧ x.toNat ≤ 0xBF
    if b < 0xC2 then 1
    else if b < 0xE0 then
      match rest with
      | s1 :: _ => if cont s1 then 2 else 1
      | _ => 1
    else if b < 0xF0 then
      let lo := if b = 0xE0 then 0xA0 else 0x80
      let hi := if b = 0xED then 0x9F else 0xBF
      match rest with
      | s1 :: s2 :: _ => if lo ≤ s1.toNat ∧ s1.toNat ≤ hi ∧ cont s2 then 3 else 1
      | _ => 1
    else if b < 0xF5 then
      let lo := if b = 0xF0 then 0x90 else 0x80
      let hi := if b = 0xF4 then 0x8F else 0xBF
      match rest with
      | s1 :: s2 :: s3 :: _ =>
        if lo ≤ s1.toNat ∧ s1.toNat ≤ hi ∧ cont s2 ∧ cont s3 then 4 else 1
      | _ => 1
    else 1

/-- The loop of `strings.Replace` for a non-empty `old`, as a left-to-right scan: at a
position where `old` starts, `new` is emitted and the following `old.length - 1` bytes are
skipped (the first argument counts the bytes still to skip); elsewhere the byte is
copied. -/
def replaceScan (old new : GoString) : Nat → GoString → GoString
  | _, [] => []
  | skip + 1, _ :: cs => replaceScan old new skip cs
  | 0, c :: cs =>
    if HasPrefix (c :: cs) old then new ++ replaceScan old new (old.length - 1) cs
    else c :: replaceScan old new 0 cs

/-- The loop of `strings.Replace` for the empty `old`: `new` is inserted after every rune
of `s` (the first argument counts the bytes of the current rune still to copy, 0 at a
rune boundary). -/
def insertAfterRunes (new : GoString) : Nat → GoString → GoString
  | _, [] => []
  | pending, c :: cs =>
    let w := if pending = 0 then runeWidth (c :: cs) else pending
    if w ≤ 1 then c :: (new ++ insertAfterRunes new 0 cs)
    else c :: insertAfterRunes new (w - 1) cs

/-- Model of `strings.ReplaceAll(s, old, new)`: every non-overlapping occurrence of `old`,
found from left to right, is replaced by `new`; an empty `old` matches at the beginning of
the string and after each rune. -/
def ReplaceAll (s old new : GoString) : GoString :=
  if old = new then s
  else if old = [] then new ++ insertAfterRunes new 0 s
  else replaceScan old new 0 s

/-- Model of `fmt.Sprintf("%s://%s", a, b)`. -/
def sprintfURL (a b : GoString) : GoString := a ++ str "://" ++ b

/-- Model of `strings.Join`. -/
def Join : List GoString → GoString → GoString
  | [], _ => []
  | [x], _ => x
  | x :: y :: rest, sep => x ++ sep ++ Join (y :: rest) sep

/-! ## Configuration -/

/-- One host rule of the configuration (`type HostRule struct`). -/
structure HostRule where
  Origin : GoString
  Alias : GoString
deriving DecidableEq, Repr

/-- Listener and upstream-proxy settings (`type AppSetting struct`). -/
structure AppSetting where
  Proxy : GoString
  Address : GoString
deriving DecidableEq, Repr

/-- The loaded configuration (`type Config struct`). -/
structure Config where
  HostRules : List HostRule
  AliasUsesHTTPS : Bool
  Settings : AppSetting
deriving DecidableEq, Repr

/-- Lookup of the origin host of an alias (`func getOriginHost`): the origin of the first
rule whose alias equals `alias_`, the empty string when there is none. -/
def getOriginHost (alias_ : GoString) : List HostRule → GoString
  | [] => []
  | rule :: rules => if rule.Alias = alias_ then rule.Origin else getOriginHost alias_ rules

/-- The URL scheme selected by a flag (`func scheme`). -/
def scheme (HTTPS : Bool) : GoString := if HTTPS then str "https" else str "http"

/-! ## The substitutor -/

/-- The body of the outer loop of `replaceHostURLs` for one rule: the inner loop over the
origin schemes `"http"` and `"https"`, then the replacement of the bare origin. -/
def replaceRule (scheme_ : GoString) (content : GoString) (rule : HostRule) : GoString :=
  let aliasURL := sprintfURL scheme_ rule.Alias
  let content := [str "http", str "https"].foldl
    (fun content originScheme =>
      ReplaceAll content (sprintfURL originScheme rule.Origin) aliasURL) content
  ReplaceAll content rule.Origin rule.Alias

/-- Rewriting of origin URLs and host names into their alias form
(`func replaceHostURLs`). -/
def replaceHostURLs (content : GoString) (rules : List HostRule) (hostWithHTTPS : Bool) :
    GoString :=
  let scheme_ := scheme hostWithHTTPS
  rules.foldl (replaceRule scheme_) content

/-- The three replacements for one rule in the order the specification lists them:
`http://origin`, then `https://origin`, then the bare origin. -/
def specRuleStep (aliasUsesHTTPS : Bool) (text : GoString) (rule : HostRule) : GoString :=
  let aliasURL := scheme aliasUsesHTTPS ++ str "://" ++ rule.Alias
  let t1 := ReplaceAll text (str "http://" ++ rule.Origin) aliasURL
  let t2 := ReplaceAll t1 (str "https://" ++ rule.Origin) aliasURL
  ReplaceAll t2 rule.Origin rule.Alias

/-- The substitutor as the specification words it: the rules in list order, each with
the full-URL replacements before the bare host name. -/
def specRewrite (text : GoString) (rules : List HostRule) (aliasUsesHTTPS : Bool) : GoString :=
  rules.foldl (specRuleStep aliasUsesHTTPS) text

/-- The variant with the precedence swapped: for each rule the bare host name is replaced
first and the two full-URL replacements afterwards. -/
def bareFirstRewrite (text : GoString) (rules : List HostRule) (aliasUsesHTTPS : Bool) :
    GoString :=
  rules.foldl (fun text rule =>
    let aliasURL := scheme aliasUsesHTTPS ++ str "://" ++ rule.Alias
    let t0 := ReplaceAll text rule.Origin rule.Alias
    let t1 := ReplaceAll t0 (str "http://" ++ rule.Origin) aliasURL
    ReplaceAll t1 (str "https://" ++ rule.Origin) aliasURL) text

/-- No non-empty suffix of `v` is a prefix of `w` or has `w` as a prefix. -/
def suffixesApart (v w : GoString) : Prop :=
  ∀ x ∈ v.tails, x ≠ [] → ¬ x <+: w ∧ ¬ w <+: x

instance instDecidableSuffixesApart (v w : GoString) : Decidable (suffixesApart v w) := by
  unfold suffixesApart; infer_instance

/-- Occurrences of `v` and of `w` cannot overlap: no non-empty suffix of one is a prefix
of the other or has the other as a prefix (so neither contains the other, and no end of
one is a start of the other). -/
def overlapFree (v w : GoString) : Prop := suffixesApart v w ∧ suffixesApart w v

instance instDecidableOverlapFree (v w : GoString) : Decidable (overlapFree v w) := by
  unfold overlapFree; infer_instance

/-! ## HTTP data -/

/-- An `http.Header`: the keys with their value lists. Keys are kept in the canonical
form in which `net/http` stores them; every key literal of the program (`Host`,
`Content-Type`, ...) is in that form, so the canonicalisation done by `Get`, `Set` and
`Del` is the identity on them and is not modelled. -/
abbrev Header := List (GoString × List GoString)

/-- Model of `Header.Get`: the first value stored under `key`, the empty string when the
key is absent or has no value. -/
def Header.Get (h : Header) (key : GoString) : GoString :=
  match h.lookup key with
  | some (v :: _) => v
  | _ => []

/-- Model of `Header.Del`: the entry stored under `key` is removed. -/
def Header.Del (h : Header) (key : GoString) : Header :=
  h.filter (fun kv => decide (kv.1 ≠ key))

/-- Model of `Header.Set`: the entry stored under `key` is replaced by the single value
`value`. -/
def Header.Set (h : Header) (key value : GoString) : Header :=
  h.Del key ++ [(key, [value])]

/-- Model of `Header.Clone`: a deep copy, equal as a value. -/
def Header.Clone (h : Header) : Header := h

/-- The fields of a `url.URL` that belong to an inbound request URL or that the handler
sets. Rendering (`URL.String`) and parsing (`url.Parse`, `http.NewRequest`) belong to
`Env`. -/
structure URL where
  Scheme : GoString
  Host : GoString
  Path : GoString
  RawQuery : GoString
deriving DecidableEq, Repr

/-- A body stream (`io.ReadCloser`, `io.Reader`) in its current state, described by what
reading the rest of it yields: the bytes `data`, followed by end of file (`err = none`)
or by a read error. -/
structure Body where
  data : GoString
  err : Option GoError
deriving DecidableEq, Repr

/-- Model of `bytes.NewReader(b)` and `strings.NewReader(s)` (also under `io.NopCloser`):
a stream that yields the given bytes and then end of file. -/
def newReader (b : GoString) : Body := { data := b, err := none }

/-- Model of `io.ReadAll` and of `(*bytes.Buffer).ReadFrom` followed by `String`: all
bytes of the stream, or the error the stream raises. -/
def readAll (b : Body) : Except GoError GoString :=
  match b.err with
  | none => .ok b.data
  | some e => .error e

/-- The stream as `io.ReadAll` or `ReadFrom` leaves it: every byte has been read, and the
stream ends as before (end of file, or its error). -/
def drain (b : Body) : Body := { data := [], err := b.err }

/-- The inbound request (`*http.Request` received by the handler). -/
structure Request where
  Method : GoString
  URL : URL
  Host : GoString
  Header : Header
  Body : Option Body
deriving DecidableEq, Repr

/-- An outbound request (`*http.Request` built by `http.NewRequest` or, for a redirect
hop, by the HTTP client). -/
structure OutRequest where
  Method : GoString
  URL : URL
  Header : Header
  Body : Option Body
deriving DecidableEq, Repr

/-- The upstream response (`*http.Response`). -/
structure Response where
  StatusCode : Nat
  Header : Header
  Body : Body
deriving DecidableEq, Repr

/-- The `http.Client` built by `forwardRequest`: the proxy of its transport (`none` when
`transport.Proxy` is left unset) and its `CheckRedirect` callback, which returns the
follow-up request as it leaves the callback and the returned error. -/
structure Client where
  Proxy : Option URL
  CheckRedirect : OutRequest → List OutRequest → OutRequest × Option GoError

/-- The outside world of the program. -/
structure Env where
  /-- Decoder `gzip.NewReader`: fails on an invalid gzip header, otherwise returns the
  stream of the decompressed bytes (which may itself end in an error). -/
  gzipNewReader : Body → Except GoError Body
  /-- The state in which `gzip.NewReader(body)`, and the reads through the reader it
  returned, leave the underlying stream `body`. -/
  gzipLeaves : Body → Body
  /-- Rendering `URL.String` of a URL value. -/
  urlString : URL → GoString
  /-- Parser `url.Parse`, used on the configured upstream proxy. -/
  urlParse : GoString → Except GoError URL
  /-- The validation done by `http.NewRequest(method, urlStr, body)`: the parsed URL of
  the new request, or the error for an invalid method or URL (the empty method stands
  for `GET`). -/
  newRequest : GoString → GoString → Except GoError URL
  /-- The round trip `client.Do(req)`, including the redirects it follows. -/
  clientDo : Client → OutRequest → Except GoError Response

/-- What the handler writes to its `http.ResponseWriter`. -/
structure ClientReply where
  status : Nat
  header : Header
  body : GoString
deriving DecidableEq, Repr

/-- Model of `http.Error(w, msg, code)` on a fresh response writer. -/
def httpError (msg : GoString) (code : Nat) : ClientReply :=
  { status := code
    header := Header.Set (Header.Set [] (str "Content-Type") (str "text/plain; charset=utf-8"))
      (str "X-Content-Type-Options") (str "nosniff")
    body := msg ++ str "\n" }

/-- The arguments of one call of `forwardRequest`. -/
structure ForwardCall where
  method : GoString
  urlStr : GoString
  headers : Header
  body : Option Body
  settings : AppSetting
deriving DecidableEq, Repr

/-- The observable outcome of `handleProxyRequest`: the calls of `forwardRequest` it
made, in order, and the reply written to the client. -/
structure HandlerResult where
  forwardCalls : List ForwardCall
  reply : ClientReply
deriving DecidableEq, Repr

/-! ## The forwarder -/

/-- The closure installed as `CheckRedirect` in `forwardRequest`; `headers` and
`bodyBytes` are the variables it captures (`bodyBytes` is `none` for the nil slice, which
is what it is exactly when no body was supplied). -/
def checkRedirect (headers : Header) (bodyBytes : Option GoString) (req : OutRequest)
    (_via : List OutRequest) : OutRequest × Option GoError :=
  let req := { req with Header := headers }
  let req := match bodyBytes with
    | some b => { req with Body := some (newReader b) }
    | none => req
  (req, none)

/-- Buffering of the request body at the start of `forwardRequest`. -/
def bufferBody (body : Option Body) : Except GoError (Option GoString) :=
  match body with
  | none => .ok none
  | some b =>
    match readAll b with
    | .ok bytes => .ok (some bytes)
    | .error e => .error (str "failed to read request body: " ++ e)

/-- The proxy of the transport built in `forwardRequest`. -/
def transportProxy (env : Env) (settings : AppSetting) : Except GoError (Option URL) :=
  if settings.Proxy ≠ [] then
    match env.urlParse settings.Proxy with
    | .ok proxyURL => .ok (some proxyURL)
    | .error e => .error (str "invalid proxy URL: " ++ e)
  else .ok none

/-- Forwarding of a request to the origin (`func forwardRequest`). -/
def forwardRequest (env : Env) (method urlStr : GoString) (headers : Header)
    (body : Option Body) (settings : AppSetting) : Except GoError Response :=
  match bufferBody body with
  | .error e => .error e
  | .ok bodyBytes =>
    match transportProxy env settings with
    | .error e => .error e
    | .ok proxy =>
      let client : Client :=
        { Proxy := proxy, CheckRedirect := checkRedirect headers bodyBytes }
      match env.newRequest method urlStr with
      | .error e => .error e
      | .ok url =>
        let req : OutRequest :=
          { Method := if method = [] then str "GET" else method, URL := url,
            Header := headers, Body := some (newReader (bodyBytes.getD [])) }
        env.clientDo client req

/-- Model of the method that the `net/http` client of the Go standard library
(`redirectBehavior`) chooses for the follow-up request of a redirect, as documented for
`Client.Do`: a 301, 302 or 303 redirect causes subsequent requests to use the method
`GET` (or `HEAD` if the original request was `HEAD`); a 307 or 308 redirect preserves the
method. -/
def redirectMethod (reqMethod : GoString) (statusCode : Nat) : GoString :=
  if statusCode = 301 ∨ statusCode = 302 ∨ statusCode = 303 then
    if reqMethod ≠ str "GET" ∧ reqMethod ≠ str "HEAD" then str "GET" else reqMethod
  else reqMethod

/-! ## The response pipeline -/

/-- Classification of a content type as textual (`func isTextContent`). -/
def isTextContent (contentType : GoString) : Bool :=
  Contains contentType (str "text") || Contains contentType (str "json") ||
    Contains contentType (str "xml")

/-- Decoding of a body (`func readBodyWithEncoding`): the returned string or error, and
the stream `body` as the call leaves it. -/
def readBodyWithEncoding (env : Env) (body : Body) (encoding : GoString) :
    Except GoError GoString × Body :=
  if encoding = str "gzip" then
    match env.gzipNewReader body with
    | .error e => (.error (str "gzip reader error: " ++ e), env.gzipLeaves body)
    | .ok gzReader => (readAll gzReader, env.gzipLeaves body)
  else (readAll body, drain body)

/-- The loop of `rewriteResponse` over the header: every value of every key is
rewritten in place. -/
def rewriteHeader (h : Header) (config : Config) : Header :=
  h.map (fun kv =>
    (kv.1, kv.2.map (fun val => replaceHostURLs val config.HostRules config.AliasUsesHTTPS)))

/-- The `if` block of `rewriteResponse`: for a textual response other than 304 the body is
decoded, rewritten and installed uncompressed, and the three framing header keys are
deleted; when decoding fails the response keeps its fields, its body stream being in the
state in which the failed read left it; any other response is left as it is. -/
def rewriteBody (env : Env) (resp : Response) (config : Config) :
    Response × Option GoError :=
  let contentEncoding := resp.Header.Get (str "Content-Encoding")
  let contentType := resp.Header.Get (str "Content-Type")
  if resp.StatusCode ≠ 304 ∧ isTextContent contentType = true then
    match readBodyWithEncoding env resp.Body contentEncoding with
    | (.error e, body) =>
      ({ resp with Body := body }, some (str "failed to process response body: " ++ e))
    | (.ok content, _) =>
      let content := replaceHostURLs content config.HostRules config.AliasUsesHTTPS
      let header := ((resp.Header.Del (str "Content-Encoding")).Del
        (str "Content-Length")).Del (str "Transfer-Encoding")
      ({ resp with Header := header, Body := newReader content }, none)
  else (resp, none)

/-- Rewriting of an upstream response (`func rewriteResponse`): the response as the call
leaves it, and the returned error. -/
def rewriteResponse (env : Env) (resp : Response) (config : Config) :
    Response × Option GoError :=
  match rewriteBody env resp config with
  | (resp, some e) => (resp, some e)
  | (resp, none) => ({ resp with Header := rewriteHeader resp.Header config }, none)

/-- The header left by the body step of `rewriteResponse` on a textual response. -/
def strippedHeader (h : Header) : Header :=
  ((h.Del (str "Content-Encoding")).Del (str "Content-Length")).Del (str "Transfer-Encoding")

/-! ## The handler -/

/-- The copy of the rewritten response to the client at the end of
`handleProxyRequest`: every header key is set to its values joined by a comma, then the
status and the bytes of the body are written. -/
def copyResponse (resp : Response) : ClientReply :=
  { status := resp.StatusCode
    header := resp.Header.foldl (fun w kv => Header.Set w kv.1 (Join kv.2 (str ","))) []
    body := resp.Body.data }

/-- The arguments with which `handleProxyRequest` calls `forwardRequest` once the origin
host is known: the rendering of the request URL with the host replaced by the origin and
the scheme set to `scheme(true)`, and a copy of the request header with `Host` set to the
origin. -/
def proxyCall (env : Env) (r : Request) (originHost : GoString) (settings : AppSetting) :
    ForwardCall :=
  let originURL := { r.URL with Host := originHost, Scheme := scheme true }
  let headers := r.Header.Clone.Set (str "Host") originHost
  { method := r.Method, urlStr := env.urlString originURL, headers := headers,
    body := r.Body, settings := settings }

/-- The request handler (`func handleProxyRequest`). -/
def handleProxyRequest (env : Env) (r : Request) (config : Config) : HandlerResult :=
  let aliasHost := r.Host
  let originHost := getOriginHost aliasHost config.HostRules
  if originHost = [] then
    { forwardCalls := [], reply := httpError (str "Not Found") 404 }
  else
    let call := proxyCall env r originHost config.Settings
    match forwardRequest env call.method call.urlStr call.headers call.body
        call.settings with
    | .error _ => { forwardCalls := [call], reply := httpError (str "Proxy error") 502 }
    | .ok resp =>
      match rewriteResponse env resp config with
      | (_, some _) =>
        { forwardCalls := [call],
          reply := httpError (str "Failed to rewrite response") 500 }
      | (resp, none) => { forwardCalls := [call], reply := copyResponse resp }

/-! ## Sample data -/

/-- The URL `https://origin.example/path?x=1`. -/
def sampleOriginURL : URL :=
  { Scheme := str "https", Host := str "origin.example", Path := str "/path",
    RawQuery := str "x=1" }

/-- A world whose gzip decoder answers `gz` for every stream and reads the stream to
its end (its buffered reader takes in a short stream at once), which renders a URL as
scheme, `://`, host, path, `?` and query, whose URL parser rejects every string, whose
`http.NewRequest` accepts every request and reads every URL string as `sampleOriginURL`,
and whose network answers every request with `resp`. -/
def sampleEnv (gz : Except GoError Body) (resp : Response) : Env :=
  { gzipNewReader := fun _ => gz
    gzipLeaves := drain
    urlString := fun u => u.Scheme ++ str "://" ++ u.Host ++ u.Path ++ str "?" ++ u.RawQuery
    urlParse := fun _ => .error (str "parse error")
    newRequest := fun _ _ => .ok sampleOriginURL
    clientDo := fun _ _ => .ok resp }

/-- The configuration with the single rule `origin.example -> alias.example`, aliases
served over HTTPS and no upstream proxy. -/
def sampleConfig : Config :=
  { HostRules := [⟨str "origin.example", str "alias.example"⟩]
    AliasUsesHTTPS := true
    Settings := { Proxy := [], Address := str "127.0.0.1:8080" } }

/-- A `POST /path?x=1` request with a two-byte body sent to the host `host`. -/
def sampleRequest (host : GoString) : Request :=
  { Method := str "POST"
    URL := { Scheme := [], Host := [], Path := str "/path", RawQuery := str "x=1" }
    Host := host
    Header := [(str "Accept", [str "*/*"])]
    Body := some (newReader (str "hi")) }

/-- A gzip-encoded HTML response whose decoded body mentions the origin. -/
def sampleGzipResponse : Response :=
  { StatusCode := 200
    Header := [(str "Content-Type", [str "text/html; charset=utf-8"]),
      (str "Content-Encoding", [str "gzip"]), (str "Content-Length", [str "23"]),
      (str "Location", [str "http://origin.example/path"])]
    Body := newReader [0x1f, 0x8b, 0x08, 0x00] }

/-- A redirect with a binary content type and a `Location` header naming the origin. -/
def sampleRedirectResponse : Response :=
  { StatusCode := 302
    Header := [(str "Content-Type", [str "application/octet-stream"]),
      (str "Location", [str "http://origin.example/path"]),
      (str "Set-Cookie", [str "a=1; Domain=origin.example", str "b=2"])]
    Body := newReader (str "origin.example") }

/-- A binary response whose bytes spell the origin and whose stream ends in an error. -/
def sampleBinaryResponse : Response :=
  { StatusCode := 200
    Header := [(str "Content-Type", [str "application/octet-stream"]),
      (str "Content-Encoding", [str "gzip"])]
    Body := { data := str "http://origin.example", err := some (str "unexpected EOF") } }

/-- A 304 response that declares an HTML body. -/
def sampleNotModifiedResponse : Response :=
  { StatusCode := 304
    Header := [(str "Content-Type", [str "text/html"])]
    Body := newReader (str "http://origin.example") }

/-- An HTML response that declares gzip but whose body is not a gzip stream. -/
def sampleBadGzipResponse : Response :=
  { StatusCode := 200
    Header := [(str "Content-Type", [str "text/html"]),
      (str "Content-Encoding", [str "gzip"]), (str "X-Upstream", [str "origin.example"])]
    Body := newReader (str "<html>not gzip</html>") }

/-- An HTML response without content encoding whose body stream fails after ten bytes
(the upstream connection is lost). -/
def sampleTruncatedResponse : Response :=
  { StatusCode := 200
    Header := [(str "Content-Type", [str "text/html"])]
    Body := { data := str "<p>partial", err := some (str "unexpected EOF") } }

/-- The follow-up request that the client of `net/http` builds for a redirect with status
`statusCode` to `location` before it calls `CheckRedirect`, as far as the method is
concerned: the method is `redirectMethod`, the body is dropped. -/
def sampleFollowUp (original : OutRequest) (statusCode : Nat) (location : URL) : OutRequest :=
  { Method := redirectMethod original.Method statusCode, URL := location,
    Header := original.Header, Body := none }

/-! ## Lemmas on strings -/

theorem HasPrefix_iff (s pre : GoString) : HasPrefix s pre = true ↔ pre <+: s := by
  unfold HasPrefix
  exact List.isPrefixOf_iff_prefix

theorem Contains_iff (s sub : GoString) : Contains s sub = true ↔ sub <:+: s := by
  induction s with
  | nil =>
    simp only [Contains, List.isEmpty_iff]
    constructor
    · intro h; subst h; exact List.infix_refl _
    · intro h; exact List.eq_nil_of_infix_nil h
  | cons c cs ih =>
    simp only [Contains, Bool.or_eq_true, HasPrefix_iff, ih]
    rw [List.infix_cons_iff]

theorem Contains_eq_false_iff (s sub : GoString) : Contains s sub = false ↔ ¬ sub <:+: s := by
  rw [← Contains_iff]; simp

theorem replaceScan_skip (old new : GoString) (k : Nat) (s : GoString) :
    replaceScan old new k s = replaceScan old new 0 (s.drop k) := by
  induction k generalizing s with
  | zero => simp
  | succ k ih =>
    cases s with
    | nil => simp [replaceScan]
    | cons c cs => simp only [replaceScan, List.drop_succ_cons]; exact ih cs

theorem replaceScan_nil (old new : GoString) : replaceScan old new 0 [] = [] := rfl

theorem replaceScan_match (old new s : GoString) (hold : old ≠ []) (h : old <+: s) :
    replaceScan old new 0 s = new ++ replaceScan old new 0 (s.drop old.length) := by
  cases s with
  | nil => exact absurd (List.eq_nil_of_prefix_nil h) hold
  | cons c cs =>
    have hp : HasPrefix (c :: cs) old = true := (HasPrefix_iff _ _).2 h
    simp only [replaceScan, hp, if_true]
    rw [replaceScan_skip]
    have hlen : old.length = (old.length - 1) + 1 := by
      have : 0 < old.length := List.length_pos.2 hold
      omega
    conv_rhs => rw [hlen, List.drop_succ_cons]

theorem replaceScan_nomatch (old new : GoString) (c : UInt8) (cs : GoString)
    (h : ¬ old <+: c :: cs) :
    replaceScan old new 0 (c :: cs) = c :: replaceScan old new 0 cs := by
  have hp : HasPrefix (c :: cs) old = false := by
    rw [← Bool.not_eq_true, HasPrefix_iff]; exact h
  simp [replaceScan, hp]

/-- Induction along the scan of `replaceScan`: a match consumes `old.length` bytes, a
mismatch one byte. -/
theorem scan_induction (old : GoString) (hold : old ≠ []) (P : GoString → Prop)
    (hnil : P [])
    (hmatch : ∀ s, old <+: s → P (s.drop old.length) → P s)
    (hstep : ∀ c cs, ¬ old <+: c :: cs → P cs → P (c :: cs)) : ∀ s, P s := by
  suffices H : ∀ n (s : GoString), s.length ≤ n → P s from fun s => H s.length s le_rfl
  intro n
  induction n with
  | zero =>
    intro s hs
    have : s = [] := List.length_eq_zero.1 (Nat.le_zero.1 hs)
    subst this
    exact hnil
  | succ n ih =>
    intro s hs
    cases s with
    | nil => exact hnil
    | cons c cs =>
      simp only [List.length_cons] at hs
      by_cases h : old <+: c :: cs
      · apply hmatch _ h
        apply ih
        have : 0 < old.length := List.length_pos.2 hold
        simp only [List.length_drop, List.length_cons]
        omega
      · apply hstep _ _ h
        apply ih
        omega

theorem replaceScan_of_absent (old new s : GoString) (h : ¬ old <:+: s) :
    replaceScan old new 0 s = s := by
  induction s with
  | nil => rfl
  | cons c cs ih =>
    have h1 : ¬ old <+: c :: cs := fun hp => h hp.isInfix
    have h2 : ¬ old <:+: cs := fun hi => h (List.infix_cons hi)
    rw [replaceScan_nomatch _ _ _ _ h1, ih h2]

theorem ReplaceAll_of_absent (s old new : GoString) (h : ¬ old <:+: s) :
    ReplaceAll s old new = s := by
  have hold : old ≠ [] := by
    rintro rfl
    exact h List.nil_infix
  unfold ReplaceAll
  split
  · rfl
  · exact replaceScan_of_absent _ _ _ h

theorem ReplaceAll_eq_scan (s old new : GoString) (hold : old ≠ []) :
    ReplaceAll s old new = replaceScan old new 0 s := by
  unfold ReplaceAll
  split
  · next h =>
    subst h
    -- replacing `old` by itself changes nothing
    refine (scan_induction old hold (fun s => s = replaceScan old old 0 s) rfl ?_ ?_ s)
    · intro s hp ih
      rw [replaceScan_match _ _ _ hold hp, ← ih]
      obtain ⟨t, rfl⟩ := hp
      simp
    · intro c cs hp ih
      rw [replaceScan_nomatch _ _ _ _ hp, ← ih]
  · rfl

theorem replaceScan_contains_new (old new s : GoString) (hold : old ≠ [])
    (h : old <:+: s) : new <:+: replaceScan old new 0 s := by
  revert h
  refine scan_induction old hold (fun s => old <:+: s → new <:+: replaceScan old new 0 s)
    ?_ ?_ ?_ s
  · intro h
    exact absurd (List.eq_nil_of_infix_nil h) hold
  · intro s hp _ _
    rw [replaceScan_match _ _ _ hold hp]
    exact (List.prefix_append _ _).isInfix
  · intro c cs hp ih h
    rw [replaceScan_nomatch _ _ _ _ hp]
    rcases List.infix_cons_iff.1 h with h1 | h1
    · exact absurd h1 hp
    · exact List.infix_cons (ih h1)

theorem suffixesApart_tail (x : UInt8) (v w : GoString) (h : suffixesApart (x :: v) w) :
    suffixesApart v w := by
  intro y hy
  apply h
  rw [List.mem_tails] at hy ⊢
  exact hy.trans (List.suffix_cons _ _)

theorem suffixesApart_self (v w : GoString) (h : suffixesApart v w) (hv : v ≠ []) :
    ¬ v <+: w ∧ ¬ w <+: v :=
  h v ((List.mem_tails _ _).2 (List.suffix_refl _)) hv

theorem suffixesApart_append_left (p v w : GoString) (h : suffixesApart (p ++ v) w) :
    suffixesApart v w := by
  intro y hy
  apply h
  rw [List.mem_tails] at hy ⊢
  exact hy.trans (List.suffix_append _ _)

theorem overlapFree_ne_nil_left (v w : GoString) (h : overlapFree v w) (hw : w ≠ []) :
    v ≠ [] := by
  rintro rfl
  exact (suffixesApart_self w [] h.2 hw).2 List.nil_prefix

theorem overlapFree_ne_nil_right (v w : GoString) (h : overlapFree v w) (hv : v ≠ []) :
    w ≠ [] := by
  rintro rfl
  exact (suffixesApart_self v [] h.1 hv).2 List.nil_prefix

/-- An occurrence of `w` in `u ++ t` lies within `t` when no non-empty suffix of `u` is a
prefix of `w` or has `w` as a prefix. -/
theorem infix_of_infix_append (w u t : GoString) (hu : suffixesApart u w)
    (h : w <:+: u ++ t) : w <:+: t := by
  obtain ⟨p, q, hpq⟩ := h
  rw [List.append_assoc] at hpq
  rcases List.append_eq_append_iff.1 hpq with ⟨x, hux, hw⟩ | ⟨x, _, ht⟩
  · cases x with
    | nil =>
      simp only [List.nil_append] at hw
      exact ⟨[], q, by simpa using hw⟩
    | cons y x =>
      exfalso
      have hmem : y :: x ∈ u.tails := by
        rw [List.mem_tails, hux]
        exact List.suffix_append _ _
      have hap := hu _ hmem (by simp)
      have h1 : w <+: w ++ q := List.prefix_append _ _
      have h2 : y :: x <+: w ++ q := by rw [hw]; exact List.prefix_append _ _
      rcases List.prefix_or_prefix_of_prefix h2 h1 with h3 | h3
      · exact hap.1 h3
      · exact hap.2 h3
  · exact ⟨x, q, by rw [ht, List.append_assoc]⟩

/-- A prefix of the input whose non-empty suffixes are apart from `old` is copied by the
scan. -/
theorem replaceScan_keeps_start (old new : GoString) :
    ∀ (u s : GoString), suffixesApart u old → u <+: s → u <+: replaceScan old new 0 s := by
  intro u
  induction u with
  | nil => intro s _ _; exact List.nil_prefix
  | cons x u ih =>
    intro s hu hp
    cases s with
    | nil => exact absurd (List.eq_nil_of_prefix_nil hp) (by simp)
    | cons y s =>
      have hne : ¬ old <+: y :: s := by
        intro hm
        have hap := suffixesApart_self _ _ hu (by simp)
        rcases List.prefix_or_prefix_of_prefix hp hm with h1 | h1
        · exact hap.1 h1
        · exact hap.2 h1
      rw [replaceScan_nomatch _ _ _ _ hne]
      obtain ⟨hxy, hus⟩ := List.cons_prefix_cons.1 hp
      exact List.cons_prefix_cons.2 ⟨hxy, ih s (suffixesApart_tail x u old hu) hus⟩

/-- An occurrence of `w` survives the replacement of `old` when occurrences of `old` and
of `w` cannot overlap. -/
theorem replaceScan_preserves_infix (old new w s : GoString) (hold : old ≠ [])
    (h : overlapFree old w) (hw : w <:+: s) : w <:+: replaceScan old new 0 s := by
  revert hw
  refine scan_induction old hold
    (fun s => w <:+: s → w <:+: replaceScan old new 0 s) ?_ ?_ ?_ s
  · intro hw; exact hw
  · intro s hp ih hw
    rw [replaceScan_match _ _ _ hold hp]
    obtain ⟨t, rfl⟩ := hp
    have ht : w <:+: t := infix_of_infix_append w old t h.1 hw
    rw [List.drop_left old t] at ih ⊢
    exact (ih ht).trans (List.suffix_append _ _).isInfix
  · intro y cs hp ih hw
    rcases List.infix_cons_iff.1 hw with h1 | h1
    · exact (replaceScan_keeps_start old new _ _ h.2 h1).isInfix
    · rw [replaceScan_nomatch _ _ _ _ hp]
      exact List.infix_cons (ih h1)

/-- A string whose non-empty suffixes are apart from `new` can only start the output of
the scan when it starts the input. -/
theorem prefix_of_prefix_replaceScan (old new : GoString) (hold : old ≠ []) :
    ∀ (v s : GoString), suffixesApart v new → v <+: replaceScan old new 0 s → v <+: s := by
  intro v
  induction v with
  | nil => intro s _ _; exact List.nil_prefix
  | cons x v ih =>
    intro s hv hp
    cases s with
    | nil => exact hp
    | cons y s =>
      by_cases hm : old <+: y :: s
      · rw [replaceScan_match _ _ _ hold hm] at hp
        have := suffixesApart_self _ _ hv (by simp)
        rcases List.prefix_or_prefix_of_prefix hp (List.prefix_append new _) with h1 | h1
        · exact absurd h1 this.1
        · exact absurd h1 this.2
      · rw [replaceScan_nomatch _ _ _ _ hm] at hp
        obtain ⟨hxy, hvs⟩ := List.cons_prefix_cons.1 hp
        exact List.cons_prefix_cons.2 ⟨hxy, ih s (suffixesApart_tail x v new hv) hvs⟩

/-- The scan creates no occurrence of `o` when occurrences of `o` and of `new` cannot
overlap: an occurrence in the output is an occurrence in the input. -/
theorem replaceScan_reflects_infix (old new o s : GoString) (hold : old ≠ [])
    (h : overlapFree o new) (ho : o <:+: replaceScan old new 0 s) : o <:+: s := by
  revert ho
  refine scan_induction old hold
    (fun s => o <:+: replaceScan old new 0 s → o <:+: s) ?_ ?_ ?_ s
  · intro ho; exact ho
  · intro s hp ih ho
    rw [replaceScan_match _ _ _ hold hp] at ho
    have := ih (infix_of_infix_append o new _ h.2 ho)
    exact this.trans (List.drop_suffix _ _).isInfix
  · intro y cs hp ih ho
    rw [replaceScan_nomatch _ _ _ _ hp] at ho
    rcases List.infix_cons_iff.1 ho with h1 | h1
    · rw [← replaceScan_nomatch old new y cs hp] at h1
      exact (prefix_of_prefix_replaceScan old new hold o _ h.1 h1).isInfix
    · exact List.infix_cons (ih h1)

/-- The output of replacing `old` by `new` contains no occurrence of `old` when
occurrences of `old` and of `new` cannot overlap. -/
theorem replaceScan_no_old (old new : GoString) (hold : old ≠ [])
    (h : overlapFree old new) (s : GoString) :
    ¬ old <:+: replaceScan old new 0 s := by
  refine scan_induction old hold
    (fun s => ¬ old <:+: replaceScan old new 0 s) ?_ ?_ ?_ s
  · intro ho
    exact absurd (List.eq_nil_of_infix_nil ho) hold
  · intro s hp ih ho
    rw [replaceScan_match _ _ _ hold hp] at ho
    exact ih (infix_of_infix_append old new _ h.2 ho)
  · intro y cs hp ih ho
    rw [replaceScan_nomatch _ _ _ _ hp] at ho
    rcases List.infix_cons_iff.1 ho with h1 | h1
    · rw [← replaceScan_nomatch old new y cs hp] at h1
      exact hp (prefix_of_prefix_replaceScan old new hold old _ h.1 h1)
    · exact ih h1

theorem ReplaceAll_reflects_infix (s old new o : GoString) (hold : old ≠ [])
    (h : overlapFree o new) (ho : o <:+: ReplaceAll s old new) : o <:+: s := by
  rw [ReplaceAll_eq_scan _ _ _ hold] at ho
  exact replaceScan_reflects_infix old new o s hold h ho

/-! ## The substitutor: one rule, fixed points, order of the replacements -/

theorem str_http_sep : str "http" ++ str "://" = str "http://" := by decide

theorem str_https_sep : str "https" ++ str "://" = str "https://" := by decide

theorem replaceRule_eq_specRuleStep (f : Bool) (text : GoString) (rule : HostRule) :
    replaceRule (scheme f) text rule = specRuleStep f text rule := by
  simp only [replaceRule, specRuleStep, sprintfURL, List.foldl_cons, List.foldl_nil,
    str_http_sep, str_https_sep]

theorem replaceHostURLs_eq_specRewrite (text : GoString) (rules : List HostRule) (f : Bool) :
    replaceHostURLs text rules f = specRewrite text rules f := by
  unfold replaceHostURLs specRewrite
  induction rules generalizing text with
  | nil => rfl
  | cons r rs ih =>
    simp only [List.foldl_cons, replaceRule_eq_specRuleStep]
    exact ih _

theorem replaceHostURLs_cons (text : GoString) (r : HostRule) (rs : List HostRule) (f : Bool) :
    replaceHostURLs text (r :: rs) f = replaceHostURLs (specRuleStep f text r) rs f := by
  simp only [replaceHostURLs, List.foldl_cons, replaceRule_eq_specRuleStep]

theorem not_infix_append_left (x o u : GoString) (h : ¬ o <:+: u) : ¬ (x ++ o) <:+: u :=
  fun hx => h ((List.suffix_append x o).isInfix.trans hx)

theorem specRuleStep_fixed (f : Bool) (u : GoString) (r : HostRule) (h : ¬ r.Origin <:+: u) :
    specRuleStep f u r = u := by
  simp only [specRuleStep]
  rw [ReplaceAll_of_absent u _ _ (not_infix_append_left _ _ _ h),
    ReplaceAll_of_absent u _ _ (not_infix_append_left _ _ _ h),
    ReplaceAll_of_absent u _ _ h]

/-- A text in which no origin host name occurs is left unchanged by the substitutor. -/
theorem replaceHostURLs_fixed (u : GoString) (rules : List HostRule) (f : Bool)
    (h : ∀ r ∈ rules, ¬ r.Origin <:+: u) : replaceHostURLs u rules f = u := by
  induction rules with
  | nil => rfl
  | cons r rs ih =>
    rw [replaceHostURLs_cons, specRuleStep_fixed f u r (h r (List.mem_cons_self _ _))]
    exact ih (fun r' hr' => h r' (List.mem_cons_of_mem _ hr'))

theorem append_ne_nil_left (a b : GoString) (h : a ≠ []) : a ++ b ≠ [] := by
  cases a with
  | nil => exact absurd rfl h
  | cons x a => simp

/-- Claim C3 (amended): for a single rule whose origin can overlap neither the alias nor
the alias URL `https://alias` (no non-empty suffix of one is a prefix of the other or has
the other as a prefix), every text containing `http://origin` is rewritten (with
`aliasUsesHTTPS = true`) into a text that contains `https://alias` and no longer contains
`http://origin`. -/
theorem C3_single_rule_rewrites_http_url (origin alias_ text : GoString)
    (hurl : overlapFree origin (str "https://" ++ alias_))
    (halias : overlapFree origin alias_)
    (htext : Contains text (str "http://" ++ origin) = true) :
    Contains (replaceHostURLs text [⟨origin, alias_⟩] true) (str "https://" ++ alias_) = true ∧
    Contains (replaceHostURLs text [⟨origin, alias_⟩] true) (str "http://" ++ origin) = false := by
  have hS : scheme true ++ str "://" = str "https://" := by decide
  have hw : str "https://" ++ alias_ ≠ [] := append_ne_nil_left _ _ (by decide)
  have ho : origin ≠ [] := overlapFree_ne_nil_left _ _ hurl hw
  have hold1 : str "http://" ++ origin ≠ [] := append_ne_nil_left _ _ (by decide)
  have hold2 : str "https://" ++ origin ≠ [] := append_ne_nil_left _ _ (by decide)
  rw [replaceHostURLs_cons]
  simp only [replaceHostURLs, List.foldl_nil, specRuleStep, hS]
  rw [Contains_iff] at htext
  -- first replacement: the occurrence of `http://origin` becomes `https://alias`
  have h1 : str "https://" ++ alias_ <:+:
      ReplaceAll text (str "http://" ++ origin) (str "https://" ++ alias_) := by
    rw [ReplaceAll_eq_scan _ _ _ hold1]
    exact replaceScan_contains_new _ _ _ hold1 htext
  -- second replacement: it either does nothing or produces `https://alias` again
  have h2 : str "https://" ++ alias_ <:+:
      ReplaceAll (ReplaceAll text (str "http://" ++ origin) (str "https://" ++ alias_))
        (str "https://" ++ origin) (str "https://" ++ alias_) := by
    by_cases hocc : (str "https://" ++ origin) <:+:
        ReplaceAll text (str "http://" ++ origin) (str "https://" ++ alias_)
    · rw [ReplaceAll_eq_scan _ _ _ hold2]
      exact replaceScan_contains_new _ _ _ hold2 hocc
    · rw [ReplaceAll_of_absent _ _ _ hocc]
      exact h1
  -- third replacement: it cannot touch `https://alias` and leaves no origin behind
  rw [ReplaceAll_eq_scan _ origin _ ho]
  constructor
  · rw [Contains_iff]
    exact replaceScan_preserves_infix origin alias_ _ _ ho hurl h2
  · rw [Contains_eq_false_iff]
    exact not_infix_append_left _ _ _ (replaceScan_no_old origin alias_ ho halias _)

/-- Witness of C3 (amended): the rule `origin.example -> alias.example` with the text
`see http://origin.example/path`, and the rules `host.example -> alias.example`,
`test.example -> alias.example` and `github.com -> gh.mirror.test`, whose origins share
bytes with `https://` or with the alias without overlapping them. -/
theorem C3_single_rule_rewrites_http_url_witness :
    (Contains (replaceHostURLs (str "see http://origin.example/path")
        [⟨str "origin.example", str "alias.example"⟩] true)
        (str "https://" ++ str "alias.example") = true ∧
      Contains (replaceHostURLs (str "see http://origin.example/path")
        [⟨str "origin.example", str "alias.example"⟩] true)
        (str "http://" ++ str "origin.example") = false) ∧
    (Contains (replaceHostURLs (str "http://host.example/")
        [⟨str "host.example", str "alias.example"⟩] true)
        (str "https://" ++ str "alias.example") = true ∧
      Contains (replaceHostURLs (str "http://host.example/")
        [⟨str "host.example", str "alias.example"⟩] true)
        (str "http://" ++ str "host.example") = false) ∧
    (Contains (replaceHostURLs (str "<a href=http://test.example>test.example</a>")
        [⟨str "test.example", str "alias.example"⟩] true)
        (str "https://" ++ str "alias.example") = true ∧
      Contains (replaceHostURLs (str "<a href=http://test.example>test.example</a>")
        [⟨str "test.example", str "alias.example"⟩] true)
        (str "http://" ++ str "test.example") = false) ∧
    (Contains (replaceHostURLs (str "git clone http://github.com/x")
        [⟨str "github.com", str "gh.mirror.test"⟩] true)
        (str "https://" ++ str "gh.mirror.test") = true ∧
      Contains (replaceHostURLs (str "git clone http://github.com/x")
        [⟨str "github.com", str "gh.mirror.test"⟩] true)
        (str "http://" ++ str "github.com") = false) :=
  ⟨C3_single_rule_rewrites_http_url (str "origin.example") (str "alias.example")
      (str "see http://origin.example/path") (by decide) (by decide) (by decide),
   C3_single_rule_rewrites_http_url (str "host.example") (str "alias.example")
      (str "http://host.example/") (by decide) (by decide) (by decide),
   C3_single_rule_rewrites_http_url (str "test.example") (str "alias.example")
      (str "<a href=http://test.example>test.example</a>") (by decide) (by decide)
      (by decide),
   C3_single_rule_rewrites_http_url (str "github.com") (str "gh.mirror.test")
      (str "git clone http://github.com/x") (by decide) (by decide) (by decide)⟩

/-- Counterexample to C3 as stated: with the single rule `example.com -> www.example.com`
and `aliasUsesHTTPS = true` the text `http://example.com` contains `http://` followed by
the origin; the URL replacement turns it into `https://www.example.com`, and the
replacement of the bare origin then turns that into `https://www.www.example.com`, which
does not contain `https://www.example.com`. -/
theorem C3_counterexample :
    Contains (str "http://example.com") (str "http://" ++ str "example.com") = true ∧
    replaceHostURLs (str "http://example.com") [⟨str "example.com", str "www.example.com"⟩]
      true = str "https://www.www.example.com" ∧
    Contains (replaceHostURLs (str "http://example.com")
        [⟨str "example.com", str "www.example.com"⟩] true)
      (str "https://" ++ str "www.example.com") = false := by
  decide

theorem scheme_sep_ne_nil (f : Bool) (a : GoString) : scheme f ++ str "://" ++ a ≠ [] :=
  append_ne_nil_left _ _ (by cases f <;> decide)

/-- One rule creates no occurrence of a host name `o` that can overlap neither the alias
nor the alias URL of the rule. -/
theorem specRuleStep_reflects_infix (f : Bool) (u o : GoString) (x : HostRule)
    (hx : x.Origin ≠ [])
    (h1 : overlapFree o x.Alias)
    (h2 : overlapFree o (scheme f ++ str "://" ++ x.Alias))
    (ho : o <:+: specRuleStep f u x) : o <:+: u := by
  simp only [specRuleStep] at ho
  have ha := ReplaceAll_reflects_infix _ _ _ o hx h1 ho
  have hb := ReplaceAll_reflects_infix _ _ _ o (append_ne_nil_left _ _ (by decide)) h2 ha
  exact ReplaceAll_reflects_infix _ _ _ o (append_ne_nil_left _ _ (by decide)) h2 hb

/-- After a rule whose origin cannot overlap its alias, the origin no longer occurs. -/
theorem specRuleStep_no_origin (f : Bool) (u : GoString) (x : HostRule)
    (hx : x.Origin ≠ []) (h : overlapFree x.Origin x.Alias) :
    ¬ x.Origin <:+: specRuleStep f u x := by
  simp only [specRuleStep]
  rw [ReplaceAll_eq_scan _ x.Origin _ hx]
  exact replaceScan_no_old x.Origin x.Alias hx h _

theorem replaceHostURLs_reflects_infix (f : Bool) (o : GoString) (rs : List HostRule) :
    ∀ u : GoString,
      (∀ x ∈ rs, x.Origin ≠ [] ∧ overlapFree o x.Alias ∧
        overlapFree o (scheme f ++ str "://" ++ x.Alias)) →
      o <:+: replaceHostURLs u rs f → o <:+: u := by
  induction rs with
  | nil => intro u _ ho; exact ho
  | cons x xs ih =>
    intro u h ho
    rw [replaceHostURLs_cons] at ho
    have hx := h x (List.mem_cons_self _ _)
    have := ih _ (fun y hy => h y (List.mem_cons_of_mem _ hy)) ho
    exact specRuleStep_reflects_infix f u o x hx.1 hx.2.1 hx.2.2 this

/-- When no origin of the rule list can overlap an alias or alias URL of the list, the
rewritten text contains no origin of the list. -/
theorem replaceHostURLs_no_origin (f : Bool) (rs : List HostRule) :
    ∀ u : GoString,
      (∀ r ∈ rs, ∀ x ∈ rs, overlapFree r.Origin x.Alias ∧
        overlapFree r.Origin (scheme f ++ str "://" ++ x.Alias)) →
      ∀ r ∈ rs, ¬ r.Origin <:+: replaceHostURLs u rs f := by
  induction rs with
  | nil => intro u _ r hr; simp at hr
  | cons x xs ih =>
    intro u h r hr
    have hne : ∀ y ∈ x :: xs, y.Origin ≠ [] := fun y hy =>
      overlapFree_ne_nil_left _ _ (h y hy y hy).2 (scheme_sep_ne_nil f _)
    rw [replaceHostURLs_cons]
    rcases List.mem_cons.1 hr with rfl | hr'
    · intro ho
      have hrefl := replaceHostURLs_reflects_infix f r.Origin xs _
        (fun y hy => ⟨hne y (List.mem_cons_of_mem _ hy),
          h r (List.mem_cons_self _ _) y (List.mem_cons_of_mem _ hy)⟩) ho
      exact specRuleStep_no_origin f u r (hne r (List.mem_cons_self _ _))
        (h r (List.mem_cons_self _ _) r (List.mem_cons_self _ _)).1 hrefl
    · exact ih _ (fun a ha b hb =>
        h a (List.mem_cons_of_mem _ ha) b (List.mem_cons_of_mem _ hb)) r hr'

/-- Claim C7 (amended): for every rule list in which no origin host name can overlap
any alias of the list or any alias URL `<scheme>://<alias>` of the list (no non-empty
suffix of one is a prefix of the other or has the other as a prefix), and for every text,
rewriting the rewritten text again changes nothing. -/
theorem C7_idempotent_when_nothing_overlaps (rules : List HostRule) (f : Bool)
    (t : GoString)
    (h : ∀ r ∈ rules, ∀ x ∈ rules, overlapFree r.Origin x.Alias ∧
      overlapFree r.Origin (scheme f ++ str "://" ++ x.Alias)) :
    replaceHostURLs (replaceHostURLs t rules f) rules f = replaceHostURLs t rules f :=
  replaceHostURLs_fixed _ rules f (replaceHostURLs_no_origin f rules t h)

/-- Witness of C7 (amended): the rules `origin.example -> alias.example` and
`github.com -> gh.mirror.test`. -/
theorem C7_idempotent_when_nothing_overlaps_witness :
    replaceHostURLs (replaceHostURLs (str "a http://origin.example/x github.com b")
        [⟨str "origin.example", str "alias.example"⟩, ⟨str "github.com", str "gh.mirror.test"⟩]
        true)
        [⟨str "origin.example", str "alias.example"⟩, ⟨str "github.com", str "gh.mirror.test"⟩]
        true
      = replaceHostURLs (str "a http://origin.example/x github.com b")
        [⟨str "origin.example", str "alias.example"⟩, ⟨str "github.com", str "gh.mirror.test"⟩]
        true ∧
    replaceHostURLs (str "a http://origin.example/x github.com b")
        [⟨str "origin.example", str "alias.example"⟩, ⟨str "github.com", str "gh.mirror.test"⟩]
        true
      = str "a https://alias.example/x gh.mirror.test b" :=
  ⟨C7_idempotent_when_nothing_overlaps
    [⟨str "origin.example", str "alias.example"⟩, ⟨str "github.com", str "gh.mirror.test"⟩]
    true (str "a http://origin.example/x github.com b") (by decide), by decide⟩

/-- Counterexample to C7 as stated: with the single rule
`api.example.com -> example.com` neither the alias nor the alias URLs contain the origin,
yet the text `api.api.example.com` is rewritten to `api.example.com`, and that text is
rewritten to `example.com`. -/
theorem C7_counterexample :
    Contains (str "example.com") (str "api.example.com") = false ∧
    Contains (str "http://example.com") (str "api.example.com") = false ∧
    Contains (str "https://example.com") (str "api.example.com") = false ∧
    (∀ f : Bool,
      replaceHostURLs (str "api.api.example.com") [⟨str "api.example.com", str "example.com"⟩] f
        = str "api.example.com" ∧
      replaceHostURLs
          (replaceHostURLs (str "api.api.example.com")
            [⟨str "api.example.com", str "example.com"⟩] f)
          [⟨str "api.example.com", str "example.com"⟩] f
        = str "example.com" ∧
      replaceHostURLs
          (replaceHostURLs (str "api.api.example.com")
            [⟨str "api.example.com", str "example.com"⟩] f)
          [⟨str "api.example.com", str "example.com"⟩] f
        ≠ replaceHostURLs (str "api.api.example.com")
            [⟨str "api.example.com", str "example.com"⟩] f) := by
  decide

/-- Claim C10: `replaceHostURLs` performs, for each rule in list order, the replacement of
`http://origin`, then of `https://origin`, both by the alias URL, and then of the bare
origin by the alias; and the order matters: for the rule `o -> a`, `aliasUsesHTTPS = true`
and the text `http://o` the variant that replaces the bare host name first yields
`http://a` whereas `replaceHostURLs` yields `https://a`. -/
theorem C10_url_before_bare_host :
    (∀ (text : GoString) (rules : List HostRule) (f : Bool),
      replaceHostURLs text rules f = specRewrite text rules f) ∧
    replaceHostURLs (str "http://o") [⟨str "o", str "a"⟩] true = str "https://a" ∧
    bareFirstRewrite (str "http://o") [⟨str "o", str "a"⟩] true = str "http://a" ∧
    bareFirstRewrite (str "http://o") [⟨str "o", str "a"⟩] true ≠
      replaceHostURLs (str "http://o") [⟨str "o", str "a"⟩] true :=
  ⟨replaceHostURLs_eq_specRewrite, by decide, by decide, by decide⟩

/-! ## Host lookup and the handler -/

theorem getOriginHost_of_no_alias (host : GoString) (rules : List HostRule)
    (h : ∀ rule ∈ rules, rule.Alias ≠ host) : getOriginHost host rules = [] := by
  induction rules with
  | nil => rfl
  | cons r rs ih =>
    have hr : r.Alias ≠ host := h r (List.mem_cons_self _ _)
    simp only [getOriginHost, if_neg hr]
    exact ih (fun rule hm => h rule (List.mem_cons_of_mem _ hm))

theorem getOriginHost_of_mem (rules : List HostRule) (rule : HostRule)
    (hdistinct : rules.Pairwise (fun a b => a.Alias ≠ b.Alias)) (hmem : rule ∈ rules) :
    getOriginHost rule.Alias rules = rule.Origin := by
  induction rules with
  | nil => simp at hmem
  | cons r rs ih =>
    rw [List.pairwise_cons] at hdistinct
    rcases List.mem_cons.1 hmem with rfl | hm
    · simp [getOriginHost]
    · have hr : r.Alias ≠ rule.Alias := hdistinct.1 rule hm
      simp only [getOriginHost, if_neg hr]
      exact ih hdistinct.2 hm

theorem Header.lookup_Del_self (h : Header) (key : GoString) :
    List.lookup key (Header.Del h key) = none := by
  induction h with
  | nil => rfl
  | cons kv h ih =>
    unfold Header.Del at ih ⊢
    by_cases hk : kv.1 = key
    · simp only [List.filter_cons, hk, ne_eq, not_true_eq_false, decide_False]
      simpa using ih
    · have hk2 : (key == kv.1) = false := by
        simp only [beq_eq_false_iff_ne, ne_eq]
        exact fun e => hk e.symm
      simp only [List.filter_cons, ne_eq, hk, not_false_eq_true, decide_True, if_true]
      obtain ⟨k, v⟩ := kv
      simp only [List.lookup_cons, hk2]
      exact ih

theorem Header.lookup_append_of_none (h₁ h₂ : Header) (key : GoString)
    (hn : List.lookup key h₁ = none) : List.lookup key (h₁ ++ h₂) = List.lookup key h₂ := by
  induction h₁ with
  | nil => rfl
  | cons kv h ih =>
    obtain ⟨k, v⟩ := kv
    simp only [List.lookup_cons, List.cons_append] at hn ⊢
    cases hk : (key == k) with
    | true => simp [hk] at hn
    | false =>
      simp only [hk] at hn ⊢
      exact ih hn

theorem Header.Get_Set_self (h : Header) (key value : GoString) :
    Header.Get (Header.Set h key value) key = value := by
  unfold Header.Get Header.Set
  rw [Header.lookup_append_of_none _ _ _ (Header.lookup_Del_self h key)]
  simp [List.lookup_cons]

/-- Claim C1 (amended): in a configuration whose aliases are pairwise distinct, for a
rule with a non-empty origin, `getOriginHost` applied to the alias of the rule yields the
origin of the rule, and `handleProxyRequest` on a request whose `Host` is that alias does
not stop at the lookup but calls `forwardRequest` exactly once, with the method and body
of the request, the rendering of a target URL whose host is the origin (scheme `https`,
same path and query) and a header in which `Host` is the origin. -/
theorem C1_alias_is_forwarded_to_origin (env : Env) (r : Request) (config : Config)
    (rule : HostRule)
    (hdistinct : config.HostRules.Pairwise (fun a b => a.Alias ≠ b.Alias))
    (hmem : rule ∈ config.HostRules)
    (horigin : rule.Origin ≠ [])
    (hhost : r.Host = rule.Alias) :
    getOriginHost r.Host config.HostRules = rule.Origin ∧
    ∃ call : ForwardCall,
      (handleProxyRequest env r config).forwardCalls = [call] ∧
      call.method = r.Method ∧ call.body = r.Body ∧
      call.urlStr = env.urlString { r.URL with Host := rule.Origin, Scheme := str "https" } ∧
      call.headers = Header.Set r.Header (str "Host") rule.Origin ∧
      call.headers.Get (str "Host") = rule.Origin := by
  have hget : getOriginHost r.Host config.HostRules = rule.Origin := by
    rw [hhost]; exact getOriginHost_of_mem _ _ hdistinct hmem
  refine ⟨hget, proxyCall env r rule.Origin config.Settings, ?_, rfl, rfl, rfl, rfl, ?_⟩
  · simp only [handleProxyRequest, hget, if_neg horigin]
    split
    · rfl
    · split <;> rfl
  · exact Header.Get_Set_self _ _ _

/-- Witness of C1 (amended): the sample configuration and a request for
`alias.example`. -/
theorem C1_alias_is_forwarded_to_origin_witness :
    getOriginHost (sampleRequest (str "alias.example")).Host sampleConfig.HostRules
      = str "origin.example" ∧
    ∃ call : ForwardCall,
      (handleProxyRequest (sampleEnv (.error []) ⟨200, [], newReader []⟩)
        (sampleRequest (str "alias.example")) sampleConfig).forwardCalls = [call] ∧
      call.method = (sampleRequest (str "alias.example")).Method ∧
      call.body = (sampleRequest (str "alias.example")).Body ∧
      call.urlStr = str "https://origin.example/path?x=1" ∧
      call.headers
        = Header.Set (sampleRequest (str "alias.example")).Header (str "Host")
            (str "origin.example") ∧
      call.headers.Get (str "Host") = str "origin.example" :=
  C1_alias_is_forwarded_to_origin (sampleEnv (.error []) ⟨200, [], newReader []⟩)
    (sampleRequest (str "alias.example")) sampleConfig
    ⟨str "origin.example", str "alias.example"⟩ (by decide) (by decide) (by decide)
    (by decide)

/-- Counterexample to C1 as stated: the only rule has the empty origin and the alias
`alias.example`; for a request whose `Host` is `alias.example` the lookup returns the
empty string, and the handler answers 404 without calling `forwardRequest`, whatever the
outside world. -/
theorem C1_counterexample :
    [(⟨[], str "alias.example"⟩ : HostRule)].Pairwise (fun a b => a.Alias ≠ b.Alias) ∧
    getOriginHost (str "alias.example") [⟨[], str "alias.example"⟩] = [] ∧
    ∀ env : Env,
      handleProxyRequest env (sampleRequest (str "alias.example"))
        { sampleConfig with HostRules := [⟨[], str "alias.example"⟩] }
      = { forwardCalls := [], reply := httpError (str "Not Found") 404 } :=
  ⟨by decide, by decide, fun _ => rfl⟩

/-- Claim C2: when the `Host` of the request equals the alias of no rule (equality of
byte strings: case-sensitive, whole string, no wildcard, no port stripping),
`handleProxyRequest` answers with status 404 and does not call `forwardRequest`. -/
theorem C2_unknown_host_is_not_found (env : Env) (r : Request) (config : Config)
    (h : ∀ rule ∈ config.HostRules, rule.Alias ≠ r.Host) :
    (handleProxyRequest env r config).reply.status = 404 ∧
    (handleProxyRequest env r config).reply = httpError (str "Not Found") 404 ∧
    (handleProxyRequest env r config).forwardCalls = [] := by
  have hget := getOriginHost_of_no_alias r.Host config.HostRules h
  have hres : handleProxyRequest env r config
      = { forwardCalls := [], reply := httpError (str "Not Found") 404 } := by
    simp only [handleProxyRequest, hget, if_true]
  rw [hres]
  exact ⟨rfl, rfl, rfl⟩

/-- Witness of C2: the alias followed by a port, and the alias in another case, match no
rule of the sample configuration. -/
theorem C2_unknown_host_is_not_found_witness :
    ((handleProxyRequest (sampleEnv (.error []) ⟨200, [], newReader []⟩)
        (sampleRequest (str "alias.example:8080")) sampleConfig).reply.status = 404 ∧
      (handleProxyRequest (sampleEnv (.error []) ⟨200, [], newReader []⟩)
        (sampleRequest (str "alias.example:8080")) sampleConfig).reply
        = httpError (str "Not Found") 404 ∧
      (handleProxyRequest (sampleEnv (.error []) ⟨200, [], newReader []⟩)
        (sampleRequest (str "alias.example:8080")) sampleConfig).forwardCalls = []) ∧
    ((handleProxyRequest (sampleEnv (.error []) ⟨200, [], newReader []⟩)
        (sampleRequest (str "Alias.example")) sampleConfig).reply.status = 404 ∧
      (handleProxyRequest (sampleEnv (.error []) ⟨200, [], newReader []⟩)
        (sampleRequest (str "Alias.example")) sampleConfig).reply
        = httpError (str "Not Found") 404 ∧
      (handleProxyRequest (sampleEnv (.error []) ⟨200, [], newReader []⟩)
        (sampleRequest (str "Alias.example")) sampleConfig).forwardCalls = []) :=
  ⟨C2_unknown_host_is_not_found _ (sampleRequest (str "alias.example:8080")) sampleConfig
      (by decide),
   C2_unknown_host_is_not_found _ (sampleRequest (str "Alias.example")) sampleConfig
      (by decide)⟩

/-! ## The response pipeline -/

theorem Header.mem_Del (h : Header) (key : GoString) (kv : GoString × List GoString) :
    kv ∈ Header.Del h key ↔ kv ∈ h ∧ kv.1 ≠ key := by
  unfold Header.Del
  simp [List.mem_filter]

theorem Header.Del_sublist (h : Header) (key : GoString) : List.Sublist (Header.Del h key) h :=
  List.filter_sublist _

theorem mem_strippedHeader (h : Header) (kv : GoString × List GoString) :
    kv ∈ strippedHeader h ↔
      kv ∈ h ∧ kv.1 ≠ str "Content-Encoding" ∧ kv.1 ≠ str "Content-Length" ∧
        kv.1 ≠ str "Transfer-Encoding" := by
  unfold strippedHeader
  simp only [Header.mem_Del]
  tauto

theorem strippedHeader_sublist (h : Header) : List.Sublist (strippedHeader h) h :=
  ((Header.Del_sublist _ _).trans (Header.Del_sublist _ _)).trans (Header.Del_sublist _ _)

theorem mem_rewriteHeader (h : Header) (config : Config) (kv : GoString × List GoString) :
    kv ∈ rewriteHeader h config ↔
      ∃ kv₀ ∈ h, kv = (kv₀.1, kv₀.2.map
        (fun val => replaceHostURLs val config.HostRules config.AliasUsesHTTPS)) := by
  unfold rewriteHeader
  simp only [List.mem_map]
  constructor
  · rintro ⟨a, ha, rfl⟩; exact ⟨a, ha, rfl⟩
  · rintro ⟨a, ha, rfl⟩; exact ⟨a, ha, rfl⟩

theorem rewriteResponse_textual_ok (env : Env) (resp : Response) (config : Config)
    (content : GoString) (h304 : resp.StatusCode ≠ 304)
    (htext : isTextContent (resp.Header.Get (str "Content-Type")) = true)
    (hread : (readBodyWithEncoding env resp.Body
      (resp.Header.Get (str "Content-Encoding"))).1 = .ok content) :
    rewriteResponse env resp config =
      ({ resp with
          Header := rewriteHeader (strippedHeader resp.Header) config
          Body := newReader
            (replaceHostURLs content config.HostRules config.AliasUsesHTTPS) }, none) := by
  rcases hpair : readBodyWithEncoding env resp.Body
      (resp.Header.Get (str "Content-Encoding")) with ⟨res, body⟩
  rw [hpair] at hread
  simp only at hread
  subst hread
  simp only [rewriteResponse, rewriteBody, h304, htext, ne_eq, not_false_eq_true, and_self,
    if_true, hpair, strippedHeader]

theorem rewriteResponse_textual_error (env : Env) (resp : Response) (config : Config)
    (e : GoError) (h304 : resp.StatusCode ≠ 304)
    (htext : isTextContent (resp.Header.Get (str "Content-Type")) = true)
    (hread : (readBodyWithEncoding env resp.Body
      (resp.Header.Get (str "Content-Encoding"))).1 = .error e) :
    rewriteResponse env resp config =
      ({ resp with Body := (readBodyWithEncoding env resp.Body
          (resp.Header.Get (str "Content-Encoding"))).2 },
        some (str "failed to process response body: " ++ e)) := by
  rcases hpair : readBodyWithEncoding env resp.Body
      (resp.Header.Get (str "Content-Encoding")) with ⟨res, body⟩
  rw [hpair] at hread
  simp only at hread
  subst hread
  simp only [rewriteResponse, rewriteBody, h304, htext, ne_eq, not_false_eq_true, and_self,
    if_true, hpair]

theorem rewriteResponse_passthrough (env : Env) (resp : Response) (config : Config)
    (h : ¬ (resp.StatusCode ≠ 304 ∧
      isTextContent (resp.Header.Get (str "Content-Type")) = true)) :
    rewriteResponse env resp config =
      ({ resp with Header := rewriteHeader resp.Header config }, none) := by
  simp only [rewriteResponse, rewriteBody, if_neg h]

theorem isTextContent_eq_true_iff (ct : GoString) :
    isTextContent ct = true ↔
      Contains ct (str "text") = true ∨ Contains ct (str "json") = true ∨
        Contains ct (str "xml") = true := by
  simp only [isTextContent, Bool.or_eq_true, or_assoc]

theorem isTextContent_eq_false_iff (ct : GoString) :
    isTextContent ct = false ↔
      Contains ct (str "text") = false ∧ Contains ct (str "json") = false ∧
        Contains ct (str "xml") = false := by
  simp only [isTextContent, Bool.or_eq_false_iff, and_assoc]

theorem readAll_newReader (b : GoString) : readAll (newReader b) = .ok b := rfl

/-- Claim C4: for an upstream response whose status is not 304, whose `Content-Type`
contains `text`, `json` or `xml` and whose body decodes to `decoded` (through the gzip
decoder when `Content-Encoding` is exactly `gzip`, as the raw bytes otherwise),
`rewriteResponse` succeeds, installs `replaceHostURLs decoded` as the body, keeps the
status, and leaves no `Content-Encoding`, `Content-Length` or `Transfer-Encoding`
header. -/
theorem C4_textual_body_is_decoded_and_rewritten (env : Env) (resp : Response)
    (config : Config) (decoded : GoString)
    (h304 : resp.StatusCode ≠ 304)
    (htext : Contains (resp.Header.Get (str "Content-Type")) (str "text") = true ∨
      Contains (resp.Header.Get (str "Content-Type")) (str "json") = true ∨
      Contains (resp.Header.Get (str "Content-Type")) (str "xml") = true)
    (hdec : (resp.Header.Get (str "Content-Encoding") = str "gzip" ∧
        env.gzipNewReader resp.Body = .ok (newReader decoded)) ∨
      (resp.Header.Get (str "Content-Encoding") ≠ str "gzip" ∧
        resp.Body = newReader decoded)) :
    (rewriteResponse env resp config).2 = none ∧
    (rewriteResponse env resp config).1.Body =
      newReader (replaceHostURLs decoded config.HostRules config.AliasUsesHTTPS) ∧
    (rewriteResponse env resp config).1.StatusCode = resp.StatusCode ∧
    (∀ kv ∈ (rewriteResponse env resp config).1.Header,
      kv.1 ≠ str "Content-Encoding" ∧ kv.1 ≠ str "Content-Length" ∧
        kv.1 ≠ str "Transfer-Encoding") ∧
    (rewriteResponse env resp config).1.Header.Get (str "Content-Encoding") = [] := by
  have hread : (readBodyWithEncoding env resp.Body
      (resp.Header.Get (str "Content-Encoding"))).1 = .ok decoded := by
    rcases hdec with ⟨hgz, hrd⟩ | ⟨hgz, hrd⟩
    · simp only [readBodyWithEncoding, hgz, if_true, hrd, readAll_newReader]
    · simp only [readBodyWithEncoding, if_neg hgz, hrd, readAll_newReader]
  rw [rewriteResponse_textual_ok env resp config decoded h304
    ((isTextContent_eq_true_iff _).2 htext) hread]
  have hkeys : ∀ kv ∈ rewriteHeader (strippedHeader resp.Header) config,
      kv.1 ≠ str "Content-Encoding" ∧ kv.1 ≠ str "Content-Length" ∧
        kv.1 ≠ str "Transfer-Encoding" := by
    intro kv hkv
    obtain ⟨kv₀, hmem, rfl⟩ := (mem_rewriteHeader _ _ _).1 hkv
    exact ((mem_strippedHeader _ _).1 hmem).2
  refine ⟨rfl, rfl, rfl, hkeys, ?_⟩
  have hnone : List.lookup (str "Content-Encoding")
      (rewriteHeader (strippedHeader resp.Header) config) = none := by
    rw [List.lookup_eq_none_iff]
    intro kv hkv
    have := (hkeys kv hkv).1
    simp only [bne_iff_ne, ne_eq]
    exact fun e => this e.symm
  simp only [Header.Get, hnone]

/-- Witness of C4: the sample gzip response, with a decoder that yields
`<a href=http://origin.example/>`. -/
theorem C4_textual_body_is_decoded_and_rewritten_witness :
    (rewriteResponse (sampleEnv (.ok (newReader (str "<a href=http://origin.example/>")))
      sampleGzipResponse) sampleGzipResponse sampleConfig).2 = none ∧
    (rewriteResponse (sampleEnv (.ok (newReader (str "<a href=http://origin.example/>")))
      sampleGzipResponse) sampleGzipResponse sampleConfig).1.Body
      = newReader (str "<a href=https://alias.example/>") ∧
    (rewriteResponse (sampleEnv (.ok (newReader (str "<a href=http://origin.example/>")))
      sampleGzipResponse) sampleGzipResponse sampleConfig).1.Header
      = [(str "Content-Type", [str "text/html; charset=utf-8"]),
         (str "Location", [str "https://alias.example/path"])] := by
  have h := C4_textual_body_is_decoded_and_rewritten
    (sampleEnv (.ok (newReader (str "<a href=http://origin.example/>"))) sampleGzipResponse)
    sampleGzipResponse sampleConfig (str "<a href=http://origin.example/>")
    (by decide) (by decide) (Or.inl ⟨by decide, rfl⟩)
  refine ⟨h.1, ?_, by decide⟩
  rw [h.2.1]
  decide

theorem rewriteResponse_header_of_ok (env : Env) (resp : Response) (config : Config)
    (hok : (rewriteResponse env resp config).2 = none) :
    (rewriteResponse env resp config).1.Header = rewriteHeader resp.Header config ∨
    (rewriteResponse env resp config).1.Header
      = rewriteHeader (strippedHeader resp.Header) config := by
  by_cases hc : resp.StatusCode ≠ 304 ∧
      isTextContent (resp.Header.Get (str "Content-Type")) = true
  · cases hread : (readBodyWithEncoding env resp.Body
        (resp.Header.Get (str "Content-Encoding"))).1 with
    | error e =>
      rw [rewriteResponse_textual_error env resp config e hc.1 hc.2 hread] at hok
      simp at hok
    | ok content =>
      rw [rewriteResponse_textual_ok env resp config content hc.1 hc.2 hread]
      exact Or.inr rfl
  · rw [rewriteResponse_passthrough env resp config hc]
    exact Or.inl rfl

/-- Claim C5: after a successful `rewriteResponse`, whatever the status and the content
type, the header is the original header, possibly without some keys, with every value
`v` of every remaining key replaced by `replaceHostURLs v`: each entry keeps its key and
its number of values, and every original entry other than `Content-Encoding`,
`Content-Length` and `Transfer-Encoding` is still present. In particular, with the rule
`origin.example -> alias.example` and `aliasUsesHTTPS = true`, the entry
`Location: http://origin.example/path` becomes `Location: https://alias.example/path`. -/
theorem C5_every_header_value_is_rewritten (env : Env) (resp : Response) (config : Config)
    (hok : (rewriteResponse env resp config).2 = none) :
    (∃ kept : Header, List.Sublist kept resp.Header ∧
      (rewriteResponse env resp config).1.Header = kept.map (fun kv => (kv.1, kv.2.map
        (fun v => replaceHostURLs v config.HostRules config.AliasUsesHTTPS)))) ∧
    (∀ kv ∈ (rewriteResponse env resp config).1.Header, ∃ kv₀ ∈ resp.Header,
      kv.1 = kv₀.1 ∧ kv.2.length = kv₀.2.length ∧
      kv.2 = kv₀.2.map (fun v => replaceHostURLs v config.HostRules config.AliasUsesHTTPS)) ∧
    (∀ kv₀ ∈ resp.Header, kv₀.1 ≠ str "Content-Encoding" → kv₀.1 ≠ str "Content-Length" →
      kv₀.1 ≠ str "Transfer-Encoding" →
      (kv₀.1, kv₀.2.map (fun v => replaceHostURLs v config.HostRules config.AliasUsesHTTPS))
        ∈ (rewriteResponse env resp config).1.Header) ∧
    (config.HostRules = [⟨str "origin.example", str "alias.example"⟩] →
      config.AliasUsesHTTPS = true →
      (str "Location", [str "http://origin.example/path"]) ∈ resp.Header →
      (str "Location", [str "https://alias.example/path"])
        ∈ (rewriteResponse env resp config).1.Header) := by
  have hkept : ∃ kept : Header, List.Sublist kept resp.Header ∧
      (∀ kv₀ ∈ resp.Header, kv₀.1 ≠ str "Content-Encoding" →
        kv₀.1 ≠ str "Content-Length" → kv₀.1 ≠ str "Transfer-Encoding" → kv₀ ∈ kept) ∧
      (rewriteResponse env resp config).1.Header = rewriteHeader kept config := by
    rcases rewriteResponse_header_of_ok env resp config hok with h | h
    · exact ⟨resp.Header, List.Sublist.refl _, fun kv₀ hm _ _ _ => hm, h⟩
    · exact ⟨strippedHeader resp.Header, strippedHeader_sublist _,
        fun kv₀ hm h1 h2 h3 => (mem_strippedHeader _ _).2 ⟨hm, h1, h2, h3⟩, h⟩
  obtain ⟨kept, hsub, hall, hhdr⟩ := hkept
  have hpresent : ∀ kv₀ ∈ resp.Header, kv₀.1 ≠ str "Content-Encoding" →
      kv₀.1 ≠ str "Content-Length" → kv₀.1 ≠ str "Transfer-Encoding" →
      (kv₀.1, kv₀.2.map (fun v => replaceHostURLs v config.HostRules config.AliasUsesHTTPS))
        ∈ (rewriteResponse env resp config).1.Header := by
    intro kv₀ hm h1 h2 h3
    rw [hhdr, mem_rewriteHeader]
    exact ⟨kv₀, hall kv₀ hm h1 h2 h3, rfl⟩
  refine ⟨⟨kept, hsub, hhdr⟩, ?_, hpresent, ?_⟩
  · intro kv hkv
    rw [hhdr, mem_rewriteHeader] at hkv
    obtain ⟨kv₀, hm, rfl⟩ := hkv
    exact ⟨kv₀, hsub.subset hm, rfl, by simp, rfl⟩
  · intro hrules hflag hloc
    have := hpresent _ hloc (by decide) (by decide) (by decide)
    rw [hrules, hflag] at this
    have hval : replaceHostURLs (str "http://origin.example/path")
        [⟨str "origin.example", str "alias.example"⟩] true
        = str "https://alias.example/path" := by decide
    simpa [hval] using this

/-- Witness of C5: the sample redirect under the sample configuration. -/
theorem C5_every_header_value_is_rewritten_witness :
    (rewriteResponse (sampleEnv (.error []) sampleRedirectResponse) sampleRedirectResponse
      sampleConfig).2 = none ∧
    (str "Location", [str "https://alias.example/path"])
      ∈ (rewriteResponse (sampleEnv (.error []) sampleRedirectResponse)
          sampleRedirectResponse sampleConfig).1.Header :=
  ⟨by decide,
   (C5_every_header_value_is_rewritten (sampleEnv (.error []) sampleRedirectResponse)
      sampleRedirectResponse sampleConfig (by decide)).2.2.2 rfl rfl (by decide)⟩

/-- Claim C6: for an upstream response whose status is 304, or whose `Content-Type`
contains none of `text`, `json`, `xml`, `rewriteResponse` succeeds and changes nothing
but the header values: status and body stream are the ones received, whatever the body
contains, and the outcome does not depend on the decoder nor on whether reading the body
would fail, so the body is neither read nor decoded. Hence the body is replaced only when
the status is not 304 and `isTextContent` holds of the content type. -/
theorem C6_other_bodies_pass_through (env : Env) (resp : Response) (config : Config)
    (h : resp.StatusCode = 304 ∨
      (Contains (resp.Header.Get (str "Content-Type")) (str "text") = false ∧
       Contains (resp.Header.Get (str "Content-Type")) (str "json") = false ∧
       Contains (resp.Header.Get (str "Content-Type")) (str "xml") = false)) :
    ¬ (resp.StatusCode ≠ 304 ∧
      isTextContent (resp.Header.Get (str "Content-Type")) = true) ∧
    rewriteResponse env resp config
      = ({ resp with Header := rewriteHeader resp.Header config }, none) ∧
    (rewriteResponse env resp config).1.Body = resp.Body ∧
    (rewriteResponse env resp config).1.StatusCode = resp.StatusCode ∧
    (∀ (env₂ : Env) (body₂ : Body),
      rewriteResponse env₂ { resp with Body := body₂ } config
        = ({ resp with Header := rewriteHeader resp.Header config, Body := body₂ }, none)) := by
  have hc : ¬ (resp.StatusCode ≠ 304 ∧
      isTextContent (resp.Header.Get (str "Content-Type")) = true) := by
    rintro ⟨h1, h2⟩
    rcases h with h | h
    · exact h1 h
    · rw [(isTextContent_eq_false_iff _).2 h] at h2
      exact Bool.false_ne_true h2
  refine ⟨hc, rewriteResponse_passthrough env resp config hc, ?_, ?_, ?_⟩
  · rw [rewriteResponse_passthrough env resp config hc]
  · rw [rewriteResponse_passthrough env resp config hc]
  · intro env₂ body₂
    exact rewriteResponse_passthrough env₂ { resp with Body := body₂ } config hc

/-- Witness of C6: a binary response and a 304 response with a textual content type. -/
theorem C6_other_bodies_pass_through_witness :
    (rewriteResponse (sampleEnv (.error []) sampleBinaryResponse) sampleBinaryResponse
      sampleConfig).1.Body
      = { data := str "http://origin.example", err := some (str "unexpected EOF") } ∧
    (rewriteResponse (sampleEnv (.error []) sampleNotModifiedResponse)
      sampleNotModifiedResponse sampleConfig).1.Body
      = newReader (str "http://origin.example") :=
  ⟨(C6_other_bodies_pass_through (sampleEnv (.error []) sampleBinaryResponse)
      sampleBinaryResponse sampleConfig (Or.inr (by decide))).2.2.1,
   (C6_other_bodies_pass_through (sampleEnv (.error []) sampleNotModifiedResponse)
      sampleNotModifiedResponse sampleConfig (Or.inl rfl)).2.2.1⟩

/-- Claim C8 (amended): when the upstream response obtained by the handler is textual,
is not a 304, and its body fails to decode, `rewriteResponse` returns an error, leaves
the status and the header of the response as they were and installs no new body (the
body is the received stream in the state in which the failed read left it), and
`handleProxyRequest` replies with the fixed error page of status 500, which carries
nothing of the upstream response. -/
theorem C8_decode_failure_is_internal_error (env : Env) (r : Request) (config : Config)
    (resp : Response) (e : GoError)
    (horigin : getOriginHost r.Host config.HostRules ≠ [])
    (hfwd : forwardRequest env
      (proxyCall env r (getOriginHost r.Host config.HostRules) config.Settings).method
      (proxyCall env r (getOriginHost r.Host config.HostRules) config.Settings).urlStr
      (proxyCall env r (getOriginHost r.Host config.HostRules) config.Settings).headers
      (proxyCall env r (getOriginHost r.Host config.HostRules) config.Settings).body
      (proxyCall env r (getOriginHost r.Host config.HostRules) config.Settings).settings
      = .ok resp)
    (h304 : resp.StatusCode ≠ 304)
    (htext : isTextContent (resp.Header.Get (str "Content-Type")) = true)
    (hdec : (readBodyWithEncoding env resp.Body
      (resp.Header.Get (str "Content-Encoding"))).1 = .error e) :
    (rewriteResponse env resp config).2
      = some (str "failed to process response body: " ++ e) ∧
    (rewriteResponse env resp config).1.StatusCode = resp.StatusCode ∧
    (rewriteResponse env resp config).1.Header = resp.Header ∧
    (rewriteResponse env resp config).1.Body
      = (readBodyWithEncoding env resp.Body (resp.Header.Get (str "Content-Encoding"))).2 ∧
    (handleProxyRequest env r config).reply
      = httpError (str "Failed to rewrite response") 500 ∧
    (handleProxyRequest env r config).reply.status = 500 := by
  have hrw := rewriteResponse_textual_error env resp config e h304 htext hdec
  have hreply : (handleProxyRequest env r config).reply
      = httpError (str "Failed to rewrite response") 500 := by
    simp only [handleProxyRequest, if_neg horigin, hfwd, hrw]
  refine ⟨?_, ?_, ?_, ?_, hreply, ?_⟩
  · rw [hrw]
  · rw [hrw]
  · rw [hrw]
  · rw [hrw]
  · rw [hreply]
    rfl

/-- Witness of C8 (amended): the upstream answers with the sample bad gzip response and
the decoder rejects it. -/
theorem C8_decode_failure_is_internal_error_witness :
    (rewriteResponse (sampleEnv (.error (str "gzip: invalid header")) sampleBadGzipResponse)
        sampleBadGzipResponse sampleConfig).2
      = some (str "failed to process response body: " ++
          (str "gzip reader error: " ++ str "gzip: invalid header")) ∧
    (rewriteResponse (sampleEnv (.error (str "gzip: invalid header")) sampleBadGzipResponse)
        sampleBadGzipResponse sampleConfig).1.StatusCode = 200 ∧
    (rewriteResponse (sampleEnv (.error (str "gzip: invalid header")) sampleBadGzipResponse)
        sampleBadGzipResponse sampleConfig).1.Header = sampleBadGzipResponse.Header ∧
    (handleProxyRequest (sampleEnv (.error (str "gzip: invalid header")) sampleBadGzipResponse)
        (sampleRequest (str "alias.example")) sampleConfig).reply
      = httpError (str "Failed to rewrite response") 500 ∧
    (handleProxyRequest (sampleEnv (.error (str "gzip: invalid header")) sampleBadGzipResponse)
        (sampleRequest (str "alias.example")) sampleConfig).reply.status = 500 := by
  have h := C8_decode_failure_is_internal_error
    (sampleEnv (.error (str "gzip: invalid header")) sampleBadGzipResponse)
    (sampleRequest (str "alias.example")) sampleConfig sampleBadGzipResponse
    (str "gzip reader error: " ++ str "gzip: invalid header")
    (by decide) rfl (by decide) (by decide) rfl
  exact ⟨h.1, h.2.1, h.2.2.1, h.2.2.2.2.1, h.2.2.2.2.2⟩

/-- Counterexample to C8 as stated: an HTML response without content encoding whose body
stream delivers `<p>partial` and then fails. The read fails, `rewriteResponse` returns an
error, and the body of the response is no longer the stream received: its ten bytes have
been read. The same holds of the sample bad gzip response once the decoder has read
it. -/
theorem C8_counterexample :
    (rewriteResponse (sampleEnv (.error []) sampleTruncatedResponse) sampleTruncatedResponse
        sampleConfig).2
      = some (str "failed to process response body: " ++ str "unexpected EOF") ∧
    sampleTruncatedResponse.Body
      = { data := str "<p>partial", err := some (str "unexpected EOF") } ∧
    (rewriteResponse (sampleEnv (.error []) sampleTruncatedResponse) sampleTruncatedResponse
        sampleConfig).1.Body
      = { data := [], err := some (str "unexpected EOF") } ∧
    (rewriteResponse (sampleEnv (.error []) sampleTruncatedResponse) sampleTruncatedResponse
        sampleConfig).1.Body ≠ sampleTruncatedResponse.Body ∧
    (rewriteResponse (sampleEnv (.error (str "gzip: invalid header")) sampleBadGzipResponse)
        sampleBadGzipResponse sampleConfig).1.Body ≠ sampleBadGzipResponse.Body := by
  decide

/-! ## The forwarder and its redirect callback -/

theorem bufferBody_of_clean (b : Body) (h : b.err = none) :
    bufferBody (some b) = .ok (some b.data) := by
  simp only [bufferBody, readAll, h]

/-- Claim C9 (amended): when the request body is read without error, `forwardRequest`
buffers all of its bytes and hands the client a request with the given method (`GET` for the empty one), headers
and a reader over the buffered bytes, together with the `CheckRedirect` callback over
these headers and bytes. On every redirect hop that callback never refuses the redirect,
sets the header of the follow-up request to the original headers, sets its body to a
fresh reader over all buffered bytes whenever a body was supplied (and leaves the body
alone otherwise), and leaves the method and the URL of the follow-up request as the
client built them. -/
theorem C9_redirect_callback_replays_header_and_body (env : Env)
    (method urlStr : GoString) (url : URL) (headers : Header) (b : Body)
    (settings : AppSetting) (proxy : Option URL)
    (hread : b.err = none)
    (hproxy : transportProxy env settings = .ok proxy)
    (hreq : env.newRequest method urlStr = .ok url) :
    forwardRequest env method urlStr headers (some b) settings
      = env.clientDo
          { Proxy := proxy, CheckRedirect := checkRedirect headers (some b.data) }
          { Method := if method = [] then str "GET" else method, URL := url,
            Header := headers, Body := some (newReader b.data) } ∧
    ∀ (bodyBytes : Option GoString) (req : OutRequest) (via : List OutRequest),
      (checkRedirect headers bodyBytes req via).2 = none ∧
      (checkRedirect headers bodyBytes req via).1.Header = headers ∧
      (∀ bytes, bodyBytes = some bytes →
        (checkRedirect headers bodyBytes req via).1.Body = some (newReader bytes)) ∧
      (bodyBytes = none → (checkRedirect headers bodyBytes req via).1.Body = req.Body) ∧
      (checkRedirect headers bodyBytes req via).1.Method = req.Method ∧
      (checkRedirect headers bodyBytes req via).1.URL = req.URL := by
  refine ⟨?_, fun bodyBytes req via => ?_⟩
  · simp only [forwardRequest, bufferBody_of_clean b hread, hproxy, hreq, Option.getD_some]
  · cases bodyBytes with
    | none => exact ⟨rfl, rfl, fun _ h => (by cases h), fun _ => rfl, rfl, rfl⟩
    | some bytes =>
      refine ⟨rfl, rfl, fun x h => ?_, fun h => (by cases h), rfl, rfl⟩
      cases h
      rfl

/-- Witness of C9 (amended): a `POST` with the body `hi`, no upstream proxy, and the
follow-up request of a 302 redirect. -/
theorem C9_redirect_callback_replays_header_and_body_witness :
    forwardRequest (sampleEnv (.error []) sampleRedirectResponse) (str "POST")
        (str "https://origin.example/path?x=1")
        [(str "Host", [str "origin.example"])] (some (newReader (str "hi")))
        sampleConfig.Settings
      = .ok sampleRedirectResponse ∧
    (checkRedirect [(str "Host", [str "origin.example"])] (some (str "hi"))
        (sampleFollowUp ⟨str "POST", ⟨str "https", str "origin.example", str "/path", []⟩,
          [(str "Host", [str "origin.example"])], some (newReader (str "hi"))⟩ 302
          ⟨str "https", str "origin.example", str "/moved", []⟩) []).1
      = ⟨str "GET", ⟨str "https", str "origin.example", str "/moved", []⟩,
          [(str "Host", [str "origin.example"])], some (newReader (str "hi"))⟩ := by
  have h := C9_redirect_callback_replays_header_and_body
    (sampleEnv (.error []) sampleRedirectResponse) (str "POST")
    (str "https://origin.example/path?x=1") sampleOriginURL
    [(str "Host", [str "origin.example"])] (newReader (str "hi")) sampleConfig.Settings
    none rfl rfl rfl
  exact ⟨h.1, by decide⟩

/-- Counterexample to C9 as stated: the original request is a `POST`; for a 302 redirect
the client builds a follow-up request whose method is `GET`, and the callback, which
restores the headers and the body, leaves that method in place, so the follow-up request
does not carry the original method. -/
theorem C9_counterexample :
    redirectMethod (str "POST") 302 = str "GET" ∧
    (checkRedirect [(str "Host", [str "origin.example"])] (some (str "hi"))
        (sampleFollowUp ⟨str "POST", ⟨str "https", str "origin.example", str "/path", []⟩,
          [(str "Host", [str "origin.example"])], some (newReader (str "hi"))⟩ 302
          ⟨str "https", str "origin.example", str "/moved", []⟩) []).1.Method
      = str "GET" ∧
    (checkRedirect [(str "Host", [str "origin.example"])] (some (str "hi"))
        (sampleFollowUp ⟨str "POST", ⟨str "https", str "origin.example", str "/path", []⟩,
          [(str "Host", [str "origin.example"])], some (newReader (str "hi"))⟩ 302
          ⟨str "https", str "origin.example", str "/moved", []⟩) []).1.Method
      ≠ str "POST" := by
  decide

end GoForwarder
